import Mathlib

/-!
# Verification of the tidy-backend messaging core

Shallow embedding of the messaging controller (`getUsers`, `getConversation`,
`sendMessage`, `deleteMessage`), the validation helpers, and the signup write
sequence of the auth controller.  The database is modelled as lists of rows
kept in insertion order; supabase query combinators (`eq`, `neq`, `or`, `in`,
`order`, `single`, `limit`) are modelled as list filters, `find?`, and a
stable insertion sort (JavaScript `Array.prototype.sort` is stable).
-/

namespace Tidy

/-- A row of the `profiles` table: `user_id`, `name`, `role`. -/
structure Profile where
  user_id : String
  name : String
  role : String
  deriving Repr, DecidableEq

/-- A row of the `messages` table.  `id` and `created_at` are modelled as
naturals; `created_at` is the timestamp key used for sorting. -/
structure Message where
  id : Nat
  sender_id : String
  receiver_id : String
  message : String
  deleted_for_sender : Bool
  deleted_for_receiver : Bool
  created_at : Nat
  deriving Repr, DecidableEq

/-- A row of the `users` table (identity collaborator). -/
structure UserRow where
  id : String
  email : String
  password : String
  deriving Repr, DecidableEq

/-- The relational store: the three tables, each kept in insertion order. -/
structure DB where
  users : List UserRow
  profiles : List Profile
  messages : List Message
  deriving Repr, DecidableEq

/-- Name order used by `.order('name', { ascending: true })`. -/
def byName (a b : Profile) : Prop := a.name ≤ b.name

instance : DecidableRel byName := fun a b => inferInstanceAs (Decidable (a.name ≤ b.name))

instance : IsTotal Profile byName := ⟨fun a b => le_total a.name b.name⟩

instance : IsTrans Profile byName := ⟨fun _ _ _ h1 h2 => le_trans h1 h2⟩

/-- `created_at` order used by the JS comparator `new Date(a) - new Date(b)`. -/
def byCreatedAt (a b : Message) : Prop := a.created_at ≤ b.created_at

instance : DecidableRel byCreatedAt := fun a b => inferInstanceAs (Decidable (a.created_at ≤ b.created_at))

instance : IsTotal Message byCreatedAt := ⟨fun a b => Nat.le_total a.created_at b.created_at⟩

instance : IsTrans Message byCreatedAt := ⟨fun _ _ _ h1 h2 => Nat.le_trans h1 h2⟩

/-- `.order('name', { ascending: true })` on a profile query. -/
def sortByName (l : List Profile) : List Profile := List.insertionSort byName l

/-- JS `Set.add`: append if not already present (insertion-ordered set). -/
def setInsert (s : List String) (x : String) : List String :=
  if s.contains x then s else s ++ [x]

/-- The `conversedUserIds` set built in `getUsers` by the `forEach` over the
message rows touching the requester: for each row, if the requester is the
sender add the receiver, else if the requester is the receiver add the
sender. -/
def conversedIds (uid : String) (msgs : List Message) : List String :=
  msgs.foldl
    (fun acc m =>
      if m.sender_id == uid then setInsert acc m.receiver_id
      else if m.receiver_id == uid then setInsert acc m.sender_id
      else acc)
    []

/-- `GET /api/messages/users` (`getUsers` in the messages controller): resolve
the requester's role via `.single()` on `profiles`; housekeepers see all
owners; owners see all other owners followed by housekeepers sharing at least
one message row with them; any other stored role falls through the
`if`/`else if` chain with `profiles = []`. -/
def getUsers (uid : String) (db : DB) : Except String (List Profile) :=
  match db.profiles.find? (fun p => p.user_id == uid) with
  | none => Except.error "Could not find user profile"
  | some currentProfile =>
    if currentProfile.role == "housekeeper" then
      Except.ok (sortByName (db.profiles.filter (fun p => p.role == "owner" && p.user_id != uid)))
    else if currentProfile.role == "owner" then
      let allOwners := sortByName (db.profiles.filter (fun p => p.role == "owner" && p.user_id != uid))
      let messageData := db.messages.filter (fun m => m.sender_id == uid || m.receiver_id == uid)
      let ids := conversedIds uid messageData
      let conversedHousekeepers :=
        if ids.length > 0 then
          sortByName (db.profiles.filter (fun p => p.role == "housekeeper" && ids.contains p.user_id))
        else []
      Except.ok (allOwners ++ conversedHousekeepers)
    else
      Except.ok []

/-- The sender-side query of `getConversation`: rows with
`sender_id = uid`, `receiver_id = other`, `deleted_for_sender = false`. -/
def sentVisible (uid other : String) (db : DB) : List Message :=
  db.messages.filter
    (fun m => m.sender_id == uid && m.receiver_id == other && m.deleted_for_sender == false)

/-- The receiver-side query of `getConversation`: rows with
`sender_id = other`, `receiver_id = uid`, `deleted_for_receiver = false`. -/
def receivedVisible (uid other : String) (db : DB) : List Message :=
  db.messages.filter
    (fun m => m.sender_id == other && m.receiver_id == uid && m.deleted_for_receiver == false)

/-- `GET /api/messages/conversation/:otherUserId`: the two queries are
concatenated (sent rows first) and then stably sorted by `created_at`. -/
def getConversation (uid other : String) (db : DB) : List Message :=
  List.insertionSort byCreatedAt (sentVisible uid other db ++ receivedVisible uid other db)

/-- Modelled from the spec (section 4.3 `fetchConversation`): same union of
the two visible directions, sorted ascending by `created_at` with ties broken
by creation order (insertion sequence).  Since `db.messages` is kept in
insertion sequence, a stable sort of the filtered store realises exactly this
tie-break. -/
def specConversation (uid other : String) (db : DB) : List Message :=
  List.insertionSort byCreatedAt
    (db.messages.filter
      (fun m =>
        (m.sender_id == uid && m.receiver_id == other && m.deleted_for_sender == false) ||
        (m.sender_id == other && m.receiver_id == uid && m.deleted_for_receiver == false)))

/-- Whitespace alphabet of JS `String.prototype.trim` (ASCII part; every
claim only compares a string's trim against the empty string under one and
the same trim function, so the exact alphabet is immaterial). -/
def isJsSpace (c : Char) : Bool :=
  c == ' ' || c == '\t' || c == '\n' || c == '\r' || c == '\x0b' || c == '\x0c'

/-- JS `String.prototype.trim`: drop leading and trailing whitespace. -/
def jsTrim (s : String) : String :=
  ⟨((s.data.dropWhile isJsSpace).reverse.dropWhile isJsSpace).reverse⟩

/-- JS truthiness test `!data[field] || data[field].trim() === ''` used by
`validateRequiredFields`; `none` models an absent field (undefined). -/
def jsFieldBlank (v : Option String) : Bool :=
  match v with
  | none => true
  | some s => s == "" || jsTrim s == ""

/-- `validateRequiredFields(data, fields)` from the validation utils: answers
the first `<field> is required` message, or `none` when every field passes. -/
def validateRequiredFields (data : List (String × String)) : List String → Option String
  | [] => none
  | f :: rest =>
    if jsFieldBlank (data.lookup f) then some (f ++ " is required")
    else validateRequiredFields data rest

/-- The prior-conversation test of `sendMessage`: one query per direction
(`limit(1)` only truncates, existence is unchanged), allowed when either
answers at least one row.  No delete-flag filter is applied. -/
def priorConversation (s r : String) (db : DB) : Bool :=
  decide (0 < (db.messages.filter (fun m => m.sender_id == s && m.receiver_id == r)).length) ||
  decide (0 < (db.messages.filter (fun m => m.sender_id == r && m.receiver_id == s)).length)

/-- The pure send-permission predicate over
(senderRole, receiverRole, priorConversationExists), read off the role branch
of `sendMessage`: non-owners are never restricted; an owner is restricted only
when the receiver is a housekeeper, in which case a prior conversation is
required. -/
def canSend (senderRole receiverRole : String) (prior : Bool) : Bool :=
  if senderRole == "owner" then
    if receiverRole == "housekeeper" then prior else true
  else true

/-- Outcome of `POST /api/messages` (`sendMessage`). -/
inductive SendResult where
  | fieldRequired (msg : String)
  | emptyMessage
  | receiverNotFound
  | selfMessage
  | senderProfileNotFound
  | permissionDenied
  | created (m : Message)
  deriving Repr, DecidableEq

/-- `POST /api/messages` (`sendMessage`): required-field validation, the
dedicated emptiness check, receiver existence in `users`, the self-send
guard, the sender-profile lookup, the owner gating branch, and the insert
(with server-assigned id and timestamp, both delete flags false, body
trimmed). -/
def sendMessage (sender_id receiver_id msg : String) (newId now : Nat) (db : DB) : SendResult :=
  match validateRequiredFields [("receiver_id", receiver_id), ("message", msg)]
      ["receiver_id", "message"] with
  | some vmsg => SendResult.fieldRequired vmsg
  | none =>
    if jsTrim msg == "" then SendResult.emptyMessage
    else if !(db.users.any (fun u => u.id == receiver_id)) then SendResult.receiverNotFound
    else if sender_id == receiver_id then SendResult.selfMessage
    else
      match db.profiles.find? (fun p => p.user_id == sender_id) with
      | none => SendResult.senderProfileNotFound
      | some senderProfile =>
        if senderProfile.role == "owner" then
          match db.profiles.find? (fun p => p.user_id == receiver_id) with
          | none => SendResult.receiverNotFound
          | some receiverProfile =>
            if receiverProfile.role == "housekeeper" then
              if priorConversation sender_id receiver_id db then
                SendResult.created ⟨newId, sender_id, receiver_id, jsTrim msg, false, false, now⟩
              else SendResult.permissionDenied
            else SendResult.created ⟨newId, sender_id, receiver_id, jsTrim msg, false, false, now⟩
        else SendResult.created ⟨newId, sender_id, receiver_id, jsTrim msg, false, false, now⟩

/-- Outcome of `DELETE /api/messages/:messageId` (`deleteMessage`). -/
inductive DeleteResult where
  | notFound
  | forbidden
  | deleted
  deriving Repr, DecidableEq

/-- `DELETE /api/messages/:messageId` (`deleteMessage`): load the row by id
(`.single()`), require the requester to be a party, then either tombstone both
sides (sender only) or only the requester's side.  The update is an in-place
flag mutation on the rows whose id matches; no row is ever removed. -/
def deleteMessage (messageId : Nat) (uid : String) (deleteForEveryone : Bool) (db : DB) :
    DeleteResult × DB :=
  match db.messages.find? (fun m => m.id == messageId) with
  | none => (DeleteResult.notFound, db)
  | some message =>
    if message.sender_id != uid && message.receiver_id != uid then (DeleteResult.forbidden, db)
    else if deleteForEveryone then
      if message.sender_id != uid then (DeleteResult.forbidden, db)
      else
        (DeleteResult.deleted,
          { db with
            messages := db.messages.map (fun m =>
              if m.id == messageId then
                { m with deleted_for_sender := true, deleted_for_receiver := true }
              else m) })
    else
      if message.sender_id == uid then
        (DeleteResult.deleted,
          { db with
            messages := db.messages.map (fun m =>
              if m.id == messageId then { m with deleted_for_sender := true } else m) })
      else
        (DeleteResult.deleted,
          { db with
            messages := db.messages.map (fun m =>
              if m.id == messageId then { m with deleted_for_receiver := true } else m) })

/-- Outcome of the signup write sequence. -/
inductive SignupResult where
  | ok (userId : String)
  | storeError (msg : String)
  deriving Repr, DecidableEq

/-- The write sequence of `signup` (auth controller) after validation and the
duplicate-email check: insert the `users` row, then insert the `profiles` row;
if the profile insert fails, issue the compensating
`supabase.from('users').delete().eq('id', user.id)` and surface the error.
`userInsertFails` / `profileInsertFails` inject store failures at the two
write points. -/
def signupWrites (db : DB) (newUserId emailLower hashedPassword nameTrimmed role : String)
    (userInsertFails profileInsertFails : Bool) : SignupResult × DB :=
  if userInsertFails then (SignupResult.storeError "user insert failed", db)
  else
    let dbAfterUser : DB := { db with users := db.users ++ [⟨newUserId, emailLower, hashedPassword⟩] }
    if profileInsertFails then
      (SignupResult.storeError "profile insert failed",
        { dbAfterUser with users := dbAfterUser.users.filter (fun u => !(u.id == newUserId)) })
    else
      (SignupResult.ok newUserId,
        { dbAfterUser with profiles := dbAfterUser.profiles ++ [⟨newUserId, nameTrimmed, role⟩] })

/-- Bidirectional conversation-existence predicate of the spec (any delete
state): at least one message row between the pair in either direction. -/
def hasMsgWith (uid c : String) (db : DB) : Bool :=
  db.messages.any
    (fun m => (m.sender_id == uid && m.receiver_id == c) || (m.sender_id == c && m.receiver_id == uid))

/-- Per-row frame condition of a delete-for-me issued by the sender: the id,
parties, body, timestamp and the receiver's flag are untouched; only the
row whose id matches gets `deleted_for_sender` set. -/
def frameSenderSide (mid : Nat) (x y : Message) : Prop :=
  y.id = x.id ∧ y.sender_id = x.sender_id ∧ y.receiver_id = x.receiver_id ∧
  y.message = x.message ∧ y.created_at = x.created_at ∧
  y.deleted_for_receiver = x.deleted_for_receiver ∧
  (x.id ≠ mid → y.deleted_for_sender = x.deleted_for_sender) ∧
  (x.id = mid → y.deleted_for_sender = true)

/-- Per-row frame condition of a delete-for-me issued by the receiver. -/
def frameReceiverSide (mid : Nat) (x y : Message) : Prop :=
  y.id = x.id ∧ y.sender_id = x.sender_id ∧ y.receiver_id = x.receiver_id ∧
  y.message = x.message ∧ y.created_at = x.created_at ∧
  y.deleted_for_sender = x.deleted_for_sender ∧
  (x.id ≠ mid → y.deleted_for_receiver = x.deleted_for_receiver) ∧
  (x.id = mid → y.deleted_for_receiver = true)

/-! ### Concrete stores used by counterexamples and witnesses -/

/-- Profile of owner Alice (`user_id` o1). -/
def pAlice : Profile := ⟨"o1", "Alice", "owner"⟩

/-- Profile of owner Bob (`user_id` o2). -/
def pBob : Profile := ⟨"o2", "Bob", "owner"⟩

/-- Profile of housekeeper Cara (`user_id` h1). -/
def pCara : Profile := ⟨"h1", "Cara", "housekeeper"⟩

/-- A store with two owners and one housekeeper, where the housekeeper has
already messaged owner o1. -/
def wdb : DB :=
  ⟨[⟨"o1", "a@x.io", "pw"⟩, ⟨"o2", "b@x.io", "pw"⟩, ⟨"h1", "c@x.io", "pw"⟩],
   [pAlice, pBob, pCara],
   [⟨1, "h1", "o1", "hi", false, false, 0⟩]⟩

/-- Message inserted first: o → u at timestamp 5. -/
def mA : Message := ⟨1, "o", "u", "hi", false, false, 5⟩

/-- Message inserted second: u → o at the same timestamp 5. -/
def mB : Message := ⟨2, "u", "o", "yo", false, false, 5⟩

/-- Store holding only the two tied messages `mA`, `mB`, in that insertion
order. -/
def tieDB : DB := ⟨[], [], [mA, mB]⟩

/-- A store whose only profile carries the out-of-set role "admin". -/
def adminDB : DB := ⟨[], [⟨"u1", "Ana", "admin"⟩], []⟩

/-- A second store with an out-of-set role, used to exercise the amended
behaviour at a different input. -/
def managerDB : DB := ⟨[], [⟨"u2", "Mia", "manager"⟩], [⟨1, "u2", "u9", "x", false, false, 0⟩]⟩

/-- A message from o1 to h1, used by the delete witnesses. -/
def dmsg : Message := ⟨7, "o1", "h1", "bye", false, false, 3⟩

/-- Store holding only `dmsg`. -/
def ddb : DB := ⟨[], [], [dmsg]⟩

/-! ### Helper lemmas -/

theorem mem_setInsert {s : List String} {x y : String} :
    y ∈ setInsert s x ↔ y ∈ s ∨ y = x := by
  unfold setInsert
  split
  · next h =>
    constructor
    · exact Or.inl
    · rintro (hy | rfl)
      · exact hy
      · simpa [List.contains] using h
  · simp

theorem mem_conversedIds_foldl (uid x : String) (msgs : List Message) (acc : List String) :
    (x ∈ msgs.foldl
      (fun acc m =>
        if m.sender_id == uid then setInsert acc m.receiver_id
        else if m.receiver_id == uid then setInsert acc m.sender_id
        else acc) acc) ↔
      x ∈ acc ∨ ∃ m ∈ msgs,
        (m.sender_id = uid ∧ x = m.receiver_id) ∨
        (m.sender_id ≠ uid ∧ m.receiver_id = uid ∧ x = m.sender_id) := by
  induction msgs generalizing acc with
  | nil => simp
  | cons m rest ih =>
    rw [List.foldl_cons]
    cases hb1 : (m.sender_id == uid) with
    | true =>
      have h1 : m.sender_id = uid := by simpa using hb1
      rw [if_pos rfl, ih]
      simp only [mem_setInsert, List.mem_cons]
      constructor
      · rintro ((hy | rfl) | ⟨m', hm', hp⟩)
        · exact Or.inl hy
        · exact Or.inr ⟨m, Or.inl rfl, Or.inl ⟨h1, rfl⟩⟩
        · exact Or.inr ⟨m', Or.inr hm', hp⟩
      · rintro (hy | ⟨m', (rfl | hm'), hp⟩)
        · exact Or.inl (Or.inl hy)
        · rcases hp with ⟨_, rfl⟩ | ⟨hne, _, _⟩
          · exact Or.inl (Or.inr rfl)
          · exact absurd h1 hne
        · exact Or.inr ⟨m', hm', hp⟩
    | false =>
      have h1 : m.sender_id ≠ uid := by simpa using hb1
      rw [if_neg (by simp)]
      cases hb2 : (m.receiver_id == uid) with
      | true =>
        have h2 : m.receiver_id = uid := by simpa using hb2
        rw [if_pos rfl, ih]
        simp only [mem_setInsert, List.mem_cons]
        constructor
        · rintro ((hy | rfl) | ⟨m', hm', hp⟩)
          · exact Or.inl hy
          · exact Or.inr ⟨m, Or.inl rfl, Or.inr ⟨h1, h2, rfl⟩⟩
          · exact Or.inr ⟨m', Or.inr hm', hp⟩
        · rintro (hy | ⟨m', (rfl | hm'), hp⟩)
          · exact Or.inl (Or.inl hy)
          · rcases hp with ⟨hs, _⟩ | ⟨_, _, rfl⟩
            · exact absurd hs h1
            · exact Or.inl (Or.inr rfl)
          · exact Or.inr ⟨m', hm', hp⟩
      | false =>
        have h2 : m.receiver_id ≠ uid := by simpa using hb2
        rw [if_neg (by simp), ih]
        simp only [List.mem_cons]
        constructor
        · rintro (hy | ⟨m', hm', hp⟩)
          · exact Or.inl hy
          · exact Or.inr ⟨m', Or.inr hm', hp⟩
        · rintro (hy | ⟨m', (rfl | hm'), hp⟩)
          · exact Or.inl hy
          · rcases hp with ⟨hs, _⟩ | ⟨_, hr, _⟩
            · exact absurd hs h1
            · exact absurd hr h2
          · exact Or.inr ⟨m', hm', hp⟩

theorem conversedIds_contains_eq_hasMsgWith (uid x : String) (db : DB) (hx : x ≠ uid) :
    (conversedIds uid
      (db.messages.filter (fun m => m.sender_id == uid || m.receiver_id == uid))).contains x =
    hasMsgWith uid x db := by
  rw [Bool.eq_iff_iff]
  rw [show ((conversedIds uid
      (db.messages.filter (fun m => m.sender_id == uid || m.receiver_id == uid))).contains x = true)
      ↔ x ∈ conversedIds uid
        (db.messages.filter (fun m => m.sender_id == uid || m.receiver_id == uid)) by
    simp [List.contains]]
  unfold conversedIds
  rw [mem_conversedIds_foldl]
  unfold hasMsgWith
  rw [List.any_eq_true]
  simp only [List.mem_filter, List.not_mem_nil, false_or, Bool.or_eq_true, Bool.and_eq_true,
    beq_iff_eq]
  constructor
  · rintro ⟨m, ⟨hm, _⟩, ⟨hs, rfl⟩ | ⟨_, hr, rfl⟩⟩
    · exact ⟨m, hm, Or.inl ⟨hs, rfl⟩⟩
    · exact ⟨m, hm, Or.inr ⟨rfl, hr⟩⟩
  · rintro ⟨m, hm, ⟨hs, hr⟩ | ⟨hs, hr⟩⟩
    · exact ⟨m, ⟨hm, Or.inl (by simp [hs])⟩, Or.inl ⟨hs, hr.symm⟩⟩
    · have hsu : m.sender_id ≠ uid := fun h => hx (hs.symm.trans h)
      exact ⟨m, ⟨hm, Or.inr (by simp [hr])⟩, Or.inr ⟨hsu, hr, hs.symm⟩⟩

theorem find?_map_updAt (mid : Nat) (upd : Message → Message)
    (hupd : ∀ x, (upd x).id = x.id) (l : List Message) (m : Message)
    (hfind : l.find? (fun x => x.id == mid) = some m) :
    (l.map (fun x => if x.id == mid then upd x else x)).find? (fun x => x.id == mid) =
      some (upd m) := by
  have hcomp : ((fun x : Message => x.id == mid) ∘ (fun x => if x.id == mid then upd x else x)) =
      (fun x : Message => x.id == mid) := by
    funext x
    by_cases h : (x.id == mid) = true
    · simp only [Function.comp_apply, if_pos h, hupd]
    · simp only [Function.comp_apply, if_neg h]
  have hm : (m.id == mid) = true := by simpa using List.find?_some hfind
  rw [List.find?_map, hcomp, hfind]
  simp only [Option.map_some']
  rw [if_pos hm]

theorem map_updAt_idem (mid : Nat) (upd : Message → Message)
    (hupd : ∀ x, (upd x).id = x.id) (hidem : ∀ x, upd (upd x) = upd x) (l : List Message) :
    ((l.map (fun x => if x.id == mid then upd x else x)).map
      (fun x => if x.id == mid then upd x else x)) =
      l.map (fun x => if x.id == mid then upd x else x) := by
  rw [List.map_map]
  have hgg : ((fun x : Message => if x.id == mid then upd x else x) ∘
      (fun x : Message => if x.id == mid then upd x else x)) =
      (fun x : Message => if x.id == mid then upd x else x) := by
    funext x
    by_cases h : (x.id == mid) = true
    · simp only [Function.comp_apply, if_pos h]
      rw [if_pos (by rw [hupd]; exact h), hidem]
    · simp only [Function.comp_apply, if_neg h, if_neg h]
  rw [hgg]

/-! ### Claim theorems -/

/-- Claim C7: for a requester whose stored role is housekeeper, `getUsers`
answers exactly the owner profiles other than the requester, sorted by name
ascending, and nothing else (in particular no housekeeper and never the
requester). -/
theorem getUsers_housekeeper_contract (uid : String) (db : DB) (cp : Profile)
    (hcp : db.profiles.find? (fun p => p.user_id == uid) = some cp)
    (hrole : cp.role = "housekeeper") :
    ∃ l, getUsers uid db = Except.ok l ∧
      l.Perm (db.profiles.filter (fun p => p.role == "owner" && p.user_id != uid)) ∧
      List.Sorted byName l ∧
      ∀ p ∈ l, p.role = "owner" ∧ p.user_id ≠ uid := by
  refine ⟨sortByName (db.profiles.filter (fun p => p.role == "owner" && p.user_id != uid)),
    ?_, List.perm_insertionSort _ _, List.sorted_insertionSort _ _, ?_⟩
  · unfold getUsers
    rw [hcp]
    simp [hrole]
  · intro p hp
    rw [sortByName, List.mem_insertionSort, List.mem_filter] at hp
    have h2 := hp.2
    simp only [Bool.and_eq_true, beq_iff_eq, bne_iff_ne] at h2
    exact h2

/-- Witness for claim C7 at a concrete store: housekeeper h1 sees the two
owners Alice and Bob. -/
theorem getUsers_housekeeper_contract_witness :
    ∃ l, getUsers "h1" wdb = Except.ok l ∧
      l.Perm (wdb.profiles.filter (fun p => p.role == "owner" && p.user_id != "h1")) ∧
      List.Sorted byName l ∧
      ∀ p ∈ l, p.role = "owner" ∧ p.user_id ≠ "h1" :=
  getUsers_housekeeper_contract "h1" wdb pCara rfl rfl

/-- Counterexample to claim C8: in `adminDB` the requester's stored role is
"admin", outside the closed role set, yet `getUsers` answers a normal success
with an empty contact list rather than any error. -/
theorem getUsers_unknown_role_counterexample :
    getUsers "u1" adminDB = Except.ok [] := rfl

/-- Claim C8 as amended: for a requester whose stored role is outside
the owner and housekeeper set, `getUsers` falls through the role branches and
answers a normal empty-list success, not a data-integrity error. -/
theorem getUsers_unknown_role_ok (uid : String) (db : DB) (cp : Profile)
    (hcp : db.profiles.find? (fun p => p.user_id == uid) = some cp)
    (h1 : cp.role ≠ "housekeeper") (h2 : cp.role ≠ "owner") :
    getUsers uid db = Except.ok [] := by
  unfold getUsers
  rw [hcp]
  simp [h1, h2]

/-- Witness for the amended claim C8 at a second concrete store. -/
theorem getUsers_unknown_role_ok_witness :
    getUsers "u2" managerDB = Except.ok [] :=
  getUsers_unknown_role_ok "u2" managerDB ⟨"u2", "Mia", "manager"⟩ rfl
    (by decide) (by decide)

/-- Claim C9: in the signup write sequence, when the `users` insert succeeds
and the subsequent `profiles` insert fails, the compensating delete removes
the just-created user row before the error is surfaced: the final store holds
no trace of the new user (given the server-assigned id was fresh). -/
theorem signup_profile_failure_compensated (db : DB)
    (newUserId emailLower hashedPassword nameTrimmed role : String)
    (hfresh : ∀ u ∈ db.users, u.id ≠ newUserId) :
    ∃ e db',
      signupWrites db newUserId emailLower hashedPassword nameTrimmed role false true =
        (SignupResult.storeError e, db') ∧
      db'.users = db.users ∧ db'.profiles = db.profiles ∧ db'.messages = db.messages := by
  have hfilter : (db.users ++ [(⟨newUserId, emailLower, hashedPassword⟩ : UserRow)]).filter
      (fun u => !(u.id == newUserId)) = db.users := by
    rw [List.filter_append]
    have hself : db.users.filter (fun u => !(u.id == newUserId)) = db.users :=
      List.filter_eq_self.mpr (fun u hu => by simp [hfresh u hu])
    rw [hself]
    simp
  exact ⟨"profile insert failed", _, rfl, hfilter, rfl, rfl⟩

/-- Witness for claim C9: a profile-insert failure on the concrete store
`wdb` leaves the `users` table exactly as before. -/
theorem signup_profile_failure_compensated_witness :
    ∃ e db',
      signupWrites wdb "u9" "z@x.io" "hash" "Zoe" "owner" false true =
        (SignupResult.storeError e, db') ∧
      db'.users = wdb.users ∧ db'.profiles = wdb.profiles ∧ db'.messages = wdb.messages :=
  signup_profile_failure_compensated wdb "u9" "z@x.io" "hash" "Zoe" "owner" (by decide)

theorem validate_pass_message_nonblank {rid msg : String}
    (h : validateRequiredFields [("receiver_id", rid), ("message", msg)]
      ["receiver_id", "message"] = none) :
    ¬ (jsTrim msg == "") = true := by
  have hl1 : ([("receiver_id", rid), ("message", msg)]).lookup "receiver_id" = some rid := rfl
  have hl2 : ([("receiver_id", rid), ("message", msg)]).lookup "message" = some msg := rfl
  rw [validateRequiredFields, hl1, validateRequiredFields, hl2, validateRequiredFields] at h
  split at h
  · cases h
  · split at h
    · cases h
    · next hblank =>
      intro htrim
      exact hblank (by simp [jsFieldBlank, htrim])

/-- Claim C10: the dedicated emptiness rejection inside `sendMessage` is
unreachable for string bodies: the required-fields validator already rejects
any body whose trim is empty, so no execution of `sendMessage` ever answers
the `Message cannot be empty` outcome. -/
theorem sendMessage_emptyMessage_unreachable
    (sender_id receiver_id msg : String) (newId now : Nat) (db : DB) :
    decide (sendMessage sender_id receiver_id msg newId now db = SendResult.emptyMessage) =
      false := by
  rw [decide_eq_false_iff_not]
  intro h
  unfold sendMessage at h
  split at h
  · cases h
  · next hval =>
    split at h
    · next htrim => exact validate_pass_message_nonblank hval htrim
    · split at h
      · cases h
      · split at h
        · cases h
        · split at h
          · cases h
          · next senderProfile _ =>
            split at h
            · split at h
              · cases h
              · next receiverProfile _ =>
                split at h
                · split at h
                  · cases h
                  · cases h
                · cases h
            · cases h

/-- Counterexample to claim C3: in `tieDB` the received message `mA` was
inserted before the sent message `mB` and both share `created_at = 5`, yet
`getConversation` answers sent-before-received (`[mB, mA]`) while the spec's
insertion-sequence tie-break demands `[mA, mB]`. -/
theorem getConversation_tiebreak_counterexample :
    getConversation "u" "o" tieDB = [mB, mA] ∧
    specConversation "u" "o" tieDB = [mA, mB] ∧
    decide (getConversation "u" "o" tieDB = specConversation "u" "o" tieDB) = false :=
  ⟨by decide, by decide, by decide⟩

/-- Claim C3 as amended: `getConversation` returns exactly the union of the
two visible directions, sorted ascending by `created_at`, with ties broken by
the order of the concatenated query results — all of the requester's visible
sent messages (in store order) before the visible received ones — not by
global insertion sequence. -/
theorem getConversation_contract (uid other : String) (db : DB) :
    (getConversation uid other db).Perm
      (sentVisible uid other db ++ receivedVisible uid other db) ∧
    List.Sorted byCreatedAt (getConversation uid other db) ∧
    ∀ a b : Message, byCreatedAt a b →
      [a, b].Sublist (sentVisible uid other db ++ receivedVisible uid other db) →
      [a, b].Sublist (getConversation uid other db) :=
  ⟨List.perm_insertionSort _ _, List.sorted_insertionSort _ _,
    fun _ _ hab hsub => List.pair_sublist_insertionSort hab hsub⟩

/-- Witness for the amended claim C3: in `tieDB` the tied pair keeps its
concatenation order in the output of `getConversation`. -/
theorem getConversation_contract_witness :
    [mB, mA].Sublist (getConversation "u" "o" tieDB) :=
  (getConversation_contract "u" "o" tieDB).2.2 mB mA (by decide) (by decide)

/-- Claim C1: once the input, receiver-existence, self-send and
profile-resolution guards have passed, the send-permission decision of
`sendMessage` is the pure predicate `canSend` of (senderRole, receiverRole,
priorConversationExists): an owner sending to an owner is always allowed; an
owner sending to a housekeeper is allowed exactly when a message row already
exists between the pair in either direction (delete flags ignored) and
otherwise denied; a housekeeper sending to anyone is always allowed. -/
theorem sendMessage_gate (sender_id receiver_id msg : String) (newId now : Nat) (db : DB)
    (sp rp : Profile)
    (hval : validateRequiredFields [("receiver_id", receiver_id), ("message", msg)]
      ["receiver_id", "message"] = none)
    (hrecv : db.users.any (fun u => u.id == receiver_id) = true)
    (hneq : sender_id ≠ receiver_id)
    (hsp : db.profiles.find? (fun p => p.user_id == sender_id) = some sp)
    (hrp : db.profiles.find? (fun p => p.user_id == receiver_id) = some rp) :
    (sendMessage sender_id receiver_id msg newId now db = SendResult.permissionDenied ↔
      canSend sp.role rp.role (priorConversation sender_id receiver_id db) = false) ∧
    (sp.role = "owner" → rp.role = "owner" →
      sendMessage sender_id receiver_id msg newId now db =
        SendResult.created ⟨newId, sender_id, receiver_id, jsTrim msg, false, false, now⟩) ∧
    (sp.role = "owner" → rp.role = "housekeeper" →
      priorConversation sender_id receiver_id db = false →
      sendMessage sender_id receiver_id msg newId now db = SendResult.permissionDenied) ∧
    (sp.role = "owner" → rp.role = "housekeeper" →
      priorConversation sender_id receiver_id db = true →
      sendMessage sender_id receiver_id msg newId now db =
        SendResult.created ⟨newId, sender_id, receiver_id, jsTrim msg, false, false, now⟩) ∧
    (sp.role = "housekeeper" →
      sendMessage sender_id receiver_id msg newId now db =
        SendResult.created ⟨newId, sender_id, receiver_id, jsTrim msg, false, false, now⟩) := by
  have htrimf : (jsTrim msg == "") = false :=
    Bool.eq_false_iff.mpr (validate_pass_message_nonblank hval)
  have hrecvf : (!(db.users.any (fun u => u.id == receiver_id))) = false := by
    simp [hrecv]
  have hneqf : (sender_id == receiver_id) = false := by simp [hneq]
  have hE : sendMessage sender_id receiver_id msg newId now db =
      (if sp.role == "owner" then
        (if rp.role == "housekeeper" then
          (if priorConversation sender_id receiver_id db then
            SendResult.created ⟨newId, sender_id, receiver_id, jsTrim msg, false, false, now⟩
          else SendResult.permissionDenied)
        else SendResult.created ⟨newId, sender_id, receiver_id, jsTrim msg, false, false, now⟩)
      else SendResult.created ⟨newId, sender_id, receiver_id, jsTrim msg, false, false, now⟩) := by
    simp only [sendMessage, hval, htrimf, hrecvf, hneqf, hsp, hrp, Bool.false_eq_true,
      if_false]
  refine ⟨?_, ?_, ?_, ?_, ?_⟩
  · rw [hE]
    unfold canSend
    by_cases h1 : (sp.role == "owner") = true
    · rw [if_pos h1, if_pos h1]
      by_cases h2 : (rp.role == "housekeeper") = true
      · rw [if_pos h2, if_pos h2]
        cases hp : priorConversation sender_id receiver_id db
        · simp
        · simp
      · rw [if_neg h2, if_neg h2]
        simp
    · rw [if_neg h1, if_neg h1]
      simp
  · intro h1 h2
    rw [hE, if_pos (by rw [h1]; rfl), if_neg (by rw [h2]; exact Bool.false_ne_true)]
  · intro h1 h2 hp
    rw [hE, if_pos (by rw [h1]; rfl), if_pos (by rw [h2]; rfl), hp]
    simp
  · intro h1 h2 hp
    rw [hE, if_pos (by rw [h1]; rfl), if_pos (by rw [h2]; rfl), hp]
    simp
  · intro h1
    rw [hE, if_neg (by rw [h1]; exact Bool.false_ne_true)]

/-- Witness for claim C1: owner o1 may message housekeeper h1 in `wdb`
because h1 messaged o1 first. -/
theorem sendMessage_gate_witness :
    sendMessage "o1" "h1" "yo" 2 1 wdb =
      SendResult.created ⟨2, "o1", "h1", jsTrim "yo", false, false, 1⟩ :=
  (sendMessage_gate "o1" "h1" "yo" 2 1 wdb pAlice pCara (by decide) (by decide)
    (by decide) (by decide) (by decide)).2.2.2.1 rfl rfl (by decide)

theorem conv_absent_of_flags (s r : String) (db' : DB) (mid : Nat)
    (hflags : ∀ x ∈ db'.messages, x.id = mid →
      x.deleted_for_sender = true ∧ x.deleted_for_receiver = true) :
    ∀ x ∈ getConversation s r db', x.id ≠ mid := by
  intro x hx hxid
  have hx' := (List.mem_insertionSort byCreatedAt).mp hx
  rcases List.mem_append.mp hx' with hside | hside
  · have hf := List.mem_filter.mp hside
    have hfl := hflags x hf.1 hxid
    have hpred := hf.2
    simp only [Bool.and_eq_true, beq_iff_eq] at hpred
    exact Bool.noConfusion (hfl.1.symm.trans hpred.2)
  · have hf := List.mem_filter.mp hside
    have hfl := hflags x hf.1 hxid
    have hpred := hf.2
    simp only [Bool.and_eq_true, beq_iff_eq] at hpred
    exact Bool.noConfusion (hfl.2.symm.trans hpred.2)

/-- Claim C4: delete-for-everyone succeeds only for the original sender — the
other party of the message is answered forbidden with the store unchanged,
and any success implies the requester was the sender.  On success both delete
flags of the row are set, so the message is afterwards absent from both
parties' conversation views. -/
theorem deleteForEveryone_contract (mid : Nat) (uid : String) (db : DB) (m : Message)
    (hfind : db.messages.find? (fun x => x.id == mid) = some m) :
    (uid ≠ m.sender_id → uid = m.receiver_id →
      deleteMessage mid uid true db = (DeleteResult.forbidden, db)) ∧
    ((deleteMessage mid uid true db).1 = DeleteResult.deleted → uid = m.sender_id) ∧
    (uid = m.sender_id →
      ∃ db', deleteMessage mid uid true db = (DeleteResult.deleted, db') ∧
        (∀ x ∈ db'.messages, x.id = mid →
          x.deleted_for_sender = true ∧ x.deleted_for_receiver = true) ∧
        (∀ x ∈ getConversation m.sender_id m.receiver_id db', x.id ≠ mid) ∧
        (∀ x ∈ getConversation m.receiver_id m.sender_id db', x.id ≠ mid)) := by
  have hforb : uid ≠ m.sender_id → uid = m.receiver_id →
      deleteMessage mid uid true db = (DeleteResult.forbidden, db) := by
    intro hns hr
    simp only [deleteMessage, hfind]
    rw [if_neg (by simp [hr]), if_pos trivial, if_pos (by simpa using Ne.symm hns)]
  have hforb2 : uid ≠ m.sender_id → uid ≠ m.receiver_id →
      deleteMessage mid uid true db = (DeleteResult.forbidden, db) := by
    intro hns hnr
    simp only [deleteMessage, hfind]
    rw [if_pos (by
      simp only [Bool.and_eq_true, bne_iff_ne]
      exact ⟨Ne.symm hns, Ne.symm hnr⟩)]
  refine ⟨hforb, ?_, ?_⟩
  · intro hdel
    by_contra hns
    by_cases hr : uid = m.receiver_id
    · rw [hforb hns hr] at hdel
      simp at hdel
    · rw [hforb2 hns hr] at hdel
      simp at hdel
  · intro hs
    have hflags : ∀ x ∈ db.messages.map (fun x =>
        if x.id == mid then { x with deleted_for_sender := true, deleted_for_receiver := true }
        else x), x.id = mid → x.deleted_for_sender = true ∧ x.deleted_for_receiver = true := by
      intro x hx hxid
      rcases List.mem_map.mp hx with ⟨y, hy, hxy⟩
      by_cases h : (y.id == mid) = true
      · rw [if_pos h] at hxy
        rw [← hxy]
        exact ⟨rfl, rfl⟩
      · rw [if_neg h] at hxy
        rw [← hxy] at hxid
        exact absurd (by simpa using hxid) (by simpa using h)
    refine ⟨{ db with messages := db.messages.map (fun x =>
        if x.id == mid then { x with deleted_for_sender := true, deleted_for_receiver := true }
        else x) }, ?_, hflags, conv_absent_of_flags _ _ _ _ hflags,
      conv_absent_of_flags _ _ _ _ hflags⟩
    simp only [deleteMessage, hfind]
    rw [if_neg (by simp [hs]), if_pos trivial, if_neg (by simp [hs])]

/-- Witness for claim C4: the sender o1 unsends `dmsg` for everyone; the row
is flagged on both sides and absent from both conversation views. -/
theorem deleteForEveryone_contract_witness :
    ∃ db', deleteMessage 7 "o1" true ddb = (DeleteResult.deleted, db') ∧
      (∀ x ∈ db'.messages, x.id = 7 →
        x.deleted_for_sender = true ∧ x.deleted_for_receiver = true) ∧
      (∀ x ∈ getConversation dmsg.sender_id dmsg.receiver_id db', x.id ≠ 7) ∧
      (∀ x ∈ getConversation dmsg.receiver_id dmsg.sender_id db', x.id ≠ 7) :=
  (deleteForEveryone_contract 7 "o1" ddb dmsg rfl).2.2 rfl

/-- Claim C5: delete-for-me by a party flips only the requester-side flag on
the row whose id matches: no row is removed (the lists correspond
element-wise), and on every row the id, parties, body, timestamp and the
other participant's flag are untouched. -/
theorem deleteForMe_frame (mid : Nat) (uid : String) (db : DB) (m : Message)
    (hfind : db.messages.find? (fun x => x.id == mid) = some m)
    (hne : m.sender_id ≠ m.receiver_id) :
    (uid = m.sender_id →
      ∃ db', deleteMessage mid uid false db = (DeleteResult.deleted, db') ∧
        db'.users = db.users ∧ db'.profiles = db.profiles ∧
        List.Forall₂ (frameSenderSide mid) db.messages db'.messages) ∧
    (uid = m.receiver_id →
      ∃ db', deleteMessage mid uid false db = (DeleteResult.deleted, db') ∧
        db'.users = db.users ∧ db'.profiles = db.profiles ∧
        List.Forall₂ (frameReceiverSide mid) db.messages db'.messages) := by
  constructor
  · intro hs
    refine ⟨{ db with messages := db.messages.map (fun x =>
        if x.id == mid then { x with deleted_for_sender := true } else x) },
      ?_, rfl, rfl, ?_⟩
    · simp only [deleteMessage, hfind]
      rw [if_neg (by simp [hs]), if_neg (by simp), if_pos (by simp [hs])]
    · show List.Forall₂ (frameSenderSide mid) db.messages (db.messages.map (fun x =>
        if x.id == mid then { x with deleted_for_sender := true } else x))
      rw [List.forall₂_map_right_iff, List.forall₂_same]
      intro x hx
      unfold frameSenderSide
      by_cases h : (x.id == mid) = true
      · rw [if_pos h]
        refine ⟨rfl, rfl, rfl, rfl, rfl, rfl, ?_, fun _ => rfl⟩
        intro hne2
        exact absurd (by simpa using h) hne2
      · rw [if_neg h]
        refine ⟨rfl, rfl, rfl, rfl, rfl, rfl, fun _ => rfl, ?_⟩
        intro heq
        exact absurd heq (by simpa using h)
  · intro hr
    have hbs : m.sender_id ≠ uid := fun h => hne (h.trans hr)
    refine ⟨{ db with messages := db.messages.map (fun x =>
        if x.id == mid then { x with deleted_for_receiver := true } else x) },
      ?_, rfl, rfl, ?_⟩
    · simp only [deleteMessage, hfind]
      rw [if_neg (by simp [hr]), if_neg (by simp), if_neg (by simpa using hbs)]
    · show List.Forall₂ (frameReceiverSide mid) db.messages (db.messages.map (fun x =>
        if x.id == mid then { x with deleted_for_receiver := true } else x))
      rw [List.forall₂_map_right_iff, List.forall₂_same]
      intro x hx
      unfold frameReceiverSide
      by_cases h : (x.id == mid) = true
      · rw [if_pos h]
        refine ⟨rfl, rfl, rfl, rfl, rfl, rfl, ?_, fun _ => rfl⟩
        intro hne2
        exact absurd (by simpa using h) hne2
      · rw [if_neg h]
        refine ⟨rfl, rfl, rfl, rfl, rfl, rfl, fun _ => rfl, ?_⟩
        intro heq
        exact absurd heq (by simpa using h)

/-- Witness for claim C5: the receiver h1 deletes `dmsg` for themselves
only. -/
theorem deleteForMe_frame_witness :
    ∃ db', deleteMessage 7 "h1" false ddb = (DeleteResult.deleted, db') ∧
      db'.users = ddb.users ∧ db'.profiles = ddb.profiles ∧
      List.Forall₂ (frameReceiverSide 7) ddb.messages db'.messages :=
  (deleteForMe_frame 7 "h1" ddb dmsg rfl (by decide)).2 rfl

/-- Claim C6: delete is idempotent: for a requester who is a party (and the
sender, when deleting for everyone), the call succeeds, and repeating the
identical call succeeds again and leaves the store exactly as after the
first call. -/
theorem deleteMessage_idempotent (mid : Nat) (uid : String) (forEveryone : Bool) (db : DB)
    (m : Message)
    (hfind : db.messages.find? (fun x => x.id == mid) = some m)
    (hparty : uid = m.sender_id ∨ uid = m.receiver_id)
    (hsender : forEveryone = true → uid = m.sender_id) :
    ∃ db', deleteMessage mid uid forEveryone db = (DeleteResult.deleted, db') ∧
      deleteMessage mid uid forEveryone db' = (DeleteResult.deleted, db') := by
  cases forEveryone with
  | true =>
    have hs := hsender rfl
    refine ⟨{ db with messages := db.messages.map (fun x =>
        if x.id == mid then { x with deleted_for_sender := true, deleted_for_receiver := true }
        else x) }, ?_, ?_⟩
    · simp only [deleteMessage, hfind]
      rw [if_neg (by simp [hs]), if_pos trivial, if_neg (by simp [hs])]
    · have hfind2 : (db.messages.map (fun x =>
          if x.id == mid then { x with deleted_for_sender := true, deleted_for_receiver := true }
          else x)).find? (fun x => x.id == mid) =
          some { m with deleted_for_sender := true, deleted_for_receiver := true } :=
        find?_map_updAt mid (fun x => { x with deleted_for_sender := true, deleted_for_receiver := true }) (fun x => rfl) db.messages m hfind
      simp only [deleteMessage, hfind2]
      rw [if_neg (by simp [hs]), if_pos trivial, if_neg (by simp [hs])]
      rw [map_updAt_idem mid (fun x => { x with deleted_for_sender := true, deleted_for_receiver := true }) (fun x => rfl) (fun x => rfl) db.messages]
  | false =>
    by_cases hbs : m.sender_id = uid
    · refine ⟨{ db with messages := db.messages.map (fun x =>
          if x.id == mid then { x with deleted_for_sender := true } else x) }, ?_, ?_⟩
      · simp only [deleteMessage, hfind]
        rw [if_neg (by simp [hbs]), if_neg (by simp), if_pos (by simp [hbs])]
      · have hfind2 : (db.messages.map (fun x =>
            if x.id == mid then { x with deleted_for_sender := true } else x)).find?
            (fun x => x.id == mid) = some { m with deleted_for_sender := true } :=
          find?_map_updAt mid (fun x => { x with deleted_for_sender := true }) (fun x => rfl) db.messages m hfind
        simp only [deleteMessage, hfind2]
        rw [if_neg (by simp [hbs]), if_neg (by simp), if_pos (by simp [hbs])]
        rw [map_updAt_idem mid (fun x => { x with deleted_for_sender := true }) (fun x => rfl) (fun x => rfl) db.messages]
    · have hr : uid = m.receiver_id := hparty.resolve_left (fun h => hbs h.symm)
      refine ⟨{ db with messages := db.messages.map (fun x =>
          if x.id == mid then { x with deleted_for_receiver := true } else x) }, ?_, ?_⟩
      · simp only [deleteMessage, hfind]
        rw [if_neg (by simp [hr]), if_neg (by simp), if_neg (by simpa using hbs)]
      · have hfind2 : (db.messages.map (fun x =>
            if x.id == mid then { x with deleted_for_receiver := true } else x)).find?
            (fun x => x.id == mid) = some { m with deleted_for_receiver := true } :=
          find?_map_updAt mid (fun x => { x with deleted_for_receiver := true }) (fun x => rfl) db.messages m hfind
        simp only [deleteMessage, hfind2]
        rw [if_neg (by simp [hr]), if_neg (by simp), if_neg (by simpa using hbs)]
        rw [map_updAt_idem mid (fun x => { x with deleted_for_receiver := true }) (fun x => rfl) (fun x => rfl) db.messages]

/-- Witness for claim C6: the receiver h1 deletes `dmsg` for themselves
twice; the second call succeeds and changes nothing. -/
theorem deleteMessage_idempotent_witness :
    ∃ db', deleteMessage 7 "h1" false ddb = (DeleteResult.deleted, db') ∧
      deleteMessage 7 "h1" false db' = (DeleteResult.deleted, db') :=
  deleteMessage_idempotent 7 "h1" false ddb dmsg rfl (Or.inr rfl)
    (fun h => Bool.noConfusion h)

/-- Claim C2: for a requester whose stored role is owner (profiles unique per
user), `getUsers` answers the other owner profiles sorted by name ascending,
followed — concatenated after, not merged into one global sort — by the
housekeeper profiles having at least one message row with the requester in
either direction (soft-deleted rows included), sorted by name ascending; the
requester never appears in the result. -/
theorem getUsers_owner_contract (uid : String) (db : DB) (cp : Profile)
    (hcp : db.profiles.find? (fun p => p.user_id == uid) = some cp)
    (hrole : cp.role = "owner")
    (huniq : (db.profiles.map Profile.user_id).Nodup) :
    ∃ owners hks,
      getUsers uid db = Except.ok (owners ++ hks) ∧
      owners.Perm (db.profiles.filter (fun p => p.role == "owner" && p.user_id != uid)) ∧
      List.Sorted byName owners ∧
      hks.Perm (db.profiles.filter
        (fun p => p.role == "housekeeper" && hasMsgWith uid p.user_id db)) ∧
      List.Sorted byName hks ∧
      ∀ p ∈ owners ++ hks, p.user_id ≠ uid := by
  have hcp_mem : cp ∈ db.profiles := List.mem_of_find?_eq_some hcp
  have hcp_uid : cp.user_id = uid := by simpa using List.find?_some hcp
  have key : ∀ p ∈ db.profiles, p.user_id = uid → p = cp := by
    intro p hp hpu
    exact List.inj_on_of_nodup_map huniq hp hcp_mem (hpu.trans hcp_uid.symm)
  have hhk_ne : ∀ p ∈ db.profiles, p.role = "housekeeper" → p.user_id ≠ uid := by
    intro p hp hrolep hpu
    have hpc := key p hp hpu
    rw [hpc, hrole] at hrolep
    exact absurd hrolep (by decide)
  have hfiltereq : db.profiles.filter (fun p => p.role == "housekeeper" &&
      (conversedIds uid (db.messages.filter
        (fun m => m.sender_id == uid || m.receiver_id == uid))).contains p.user_id) =
      db.profiles.filter (fun p => p.role == "housekeeper" && hasMsgWith uid p.user_id db) := by
    apply List.filter_congr
    intro p hp
    cases hk : (p.role == "housekeeper") with
    | false => simp
    | true =>
      have hne := hhk_ne p hp (by simpa using hk)
      rw [conversedIds_contains_eq_hasMsgWith uid p.user_id db hne]
  have hguard : (if (conversedIds uid (db.messages.filter
        (fun m => m.sender_id == uid || m.receiver_id == uid))).length > 0 then
        sortByName (db.profiles.filter (fun p => p.role == "housekeeper" &&
          (conversedIds uid (db.messages.filter
            (fun m => m.sender_id == uid || m.receiver_id == uid))).contains p.user_id))
      else []) =
      sortByName (db.profiles.filter (fun p => p.role == "housekeeper" &&
        (conversedIds uid (db.messages.filter
          (fun m => m.sender_id == uid || m.receiver_id == uid))).contains p.user_id)) := by
    cases hids : conversedIds uid (db.messages.filter
        (fun m => m.sender_id == uid || m.receiver_id == uid)) with
    | nil =>
      have hnilf : db.profiles.filter (fun p => p.role == "housekeeper" &&
          ([] : List String).contains p.user_id) = [] := by
        apply List.filter_eq_nil_iff.mpr
        intro p hp
        simp [List.contains]
      rw [hnilf]
      simp [sortByName]
    | cons hd tl => simp
  refine ⟨sortByName (db.profiles.filter (fun p => p.role == "owner" && p.user_id != uid)),
    sortByName (db.profiles.filter
      (fun p => p.role == "housekeeper" && hasMsgWith uid p.user_id db)),
    ?_, List.perm_insertionSort _ _, List.sorted_insertionSort _ _,
    List.perm_insertionSort _ _, List.sorted_insertionSort _ _, ?_⟩
  · simp only [getUsers, hcp]
    rw [if_neg (by rw [hrole]; decide), if_pos (by rw [hrole]; rfl)]
    rw [hguard, hfiltereq]
  · intro p hp
    rcases List.mem_append.mp hp with hpo | hph
    · rw [sortByName, List.mem_insertionSort, List.mem_filter] at hpo
      have h2 := hpo.2
      simp only [Bool.and_eq_true, bne_iff_ne] at h2
      exact h2.2
    · rw [sortByName, List.mem_insertionSort, List.mem_filter] at hph
      have hk : p.role = "housekeeper" := by
        have h2 := hph.2
        simp only [Bool.and_eq_true, beq_iff_eq] at h2
        exact h2.1
      exact hhk_ne p hph.1 hk

/-- Witness for claim C2: owner o1 sees owner Bob, followed by housekeeper
Cara with whom o1 has message history. -/
theorem getUsers_owner_contract_witness :
    ∃ owners hks,
      getUsers "o1" wdb = Except.ok (owners ++ hks) ∧
      owners.Perm (wdb.profiles.filter (fun p => p.role == "owner" && p.user_id != "o1")) ∧
      List.Sorted byName owners ∧
      hks.Perm (wdb.profiles.filter
        (fun p => p.role == "housekeeper" && hasMsgWith "o1" p.user_id wdb)) ∧
      List.Sorted byName hks ∧
      ∀ p ∈ owners ++ hks, p.user_id ≠ "o1" :=
  getUsers_owner_contract "o1" wdb pAlice rfl rfl (by decide)

end Tidy
